import Mathlib

/-!
# Wallet-ledger subsystem: shallow embedding and verification

Shallow embedding of `src/repositories/moneyRepo/transaction.repository.ts`
(`createTransactionRepo`, `getListTransactionRepo`) from the
cyno-software/traffic-seo-be repository, together with proofs and
refutations of the specification claims about it.

Modelling conventions:
* JavaScript numbers that have gone through `parseFloat` are modelled as
  `JsNum`: either an exact numeric value or NaN.  Values are carried as
  scaled integers (the spec's own fixed-point reading: "scaled integer or
  arbitrary-precision decimal"), which keeps the arithmetic of every
  claim exact.
* The database visible to one call is a `Db` value: the wallet table, the
  transaction table, the auto-increment counter and a creation-time clock.
* Sequelize unit-of-work semantics: when the caller supplies a transaction
  handle (`callerUow = true`) the `Db` argument is the caller's pending
  state, reads and writes act on it directly, and the engine never commits
  or rolls back.  When the engine opens its own transaction
  (`callerUow = false`) the `Db` argument is the committed state; the
  engine's reads at lines 25-61 run outside any transaction against that
  committed state, the writes are applied on commit, and a rollback
  restores the committed state unchanged.  The unit-of-work lifecycle
  actions the engine performs are reported as a `UowEvent` trace.
* JavaScript truthiness is modelled where the source relies on it:
  `if (data.referenceId)` is false for `null`/`undefined`/`""`, and
  `if (filters.walletId)` is false for `0`.
-/

/-- A JavaScript number as used by the repository after `parseFloat`:
either an exact numeric value (a scaled integer, per the spec's
fixed-point reading) or NaN. -/
inductive JsNum : Type
  | num (q : Int)
  | nan
deriving DecidableEq

/-- The typed error object thrown by the repository.  The `ErrorType`
class itself lives outside the extracted sources; per the spec (§6) a
failure is `{kind, message, code?}`; the constructor calls in the
repository pass `(name, message, code?)`. -/
structure ErrorType : Type where
  name : String
  message : String
  code : Option String
deriving DecidableEq

/-- The transaction types the engine recognises, plus the other
caller-domain values of the closed enum (modelled by `other`). -/
inductive TransactionType : Type
  | DEPOSIT
  | PAY_SERVICE
  | REFUND_SERVICE
  | other (s : String)
deriving DecidableEq

/-- Transaction lifecycle status; caller-supplied at creation, the engine
never branches on it. -/
inductive TransactionStatus : Type
  | PENDING
  | COMPLETED
  | FAILED
deriving DecidableEq

/-- A row of the Wallet table.  Only the fields the ledger engine touches
are modelled; `balance` may fail to parse as a number (NaN). -/
structure Wallet : Type where
  id : Nat
  balance : JsNum
deriving DecidableEq

/-- A row of the Transaction table (ledger entry). -/
structure TransactionRow : Type where
  id : Nat
  walletId : Nat
  amount : JsNum
  status : TransactionStatus
  type : TransactionType
  referenceId : Option String
  isDeleted : Bool
  createdAt : Nat
deriving DecidableEq

/-- The database state visible to a call: wallet table, transaction
table, auto-increment id counter, creation-time clock. -/
structure Db : Type where
  wallets : List Wallet
  transactions : List TransactionRow
  nextId : Nat
  now : Nat
deriving DecidableEq

/-- Input of `createTransactionRepo` (Data parameter at lines 15-21). -/
structure TxData : Type where
  walletId : Nat
  amount : JsNum
  status : TransactionStatus
  type : TransactionType
  referenceId : Option String
deriving DecidableEq

/-- Unit-of-work lifecycle actions the engine itself performs. -/
inductive UowEvent : Type
  | opened
  | committed
  | rolledBack
deriving DecidableEq

/-- Result of one `createTransactionRepo` call: the returned value or
thrown error, the database state afterwards (pending state when the
caller owns the unit-of-work, committed state when the engine does), and
the unit-of-work actions the engine performed. -/
structure TxOutcome : Type where
  result : Except ErrorType TransactionRow
  db : Db
  uow : List UowEvent

/-- JavaScript truthiness of the optional `referenceId` string:
`if (data.referenceId)` at line 33 is false for null, undefined and the
empty string. -/
def refTruthy : Option String → Bool
  | some r => !(r = "")
  | none => false

/-- `Wallet.findByPk(data.walletId, ...)` at line 25. -/
def findWallet (db : Db) (walletId : Nat) : Option Wallet :=
  db.wallets.find? fun w => w.id == walletId

/-- The `TransactionModel.findOne` duplicate probe at lines 34-41: a
non-deleted row with the given `referenceId` and `type`. -/
def dupExists (db : Db) (referenceId : Option String) (ty : TransactionType) : Bool :=
  db.transactions.any fun t =>
    t.referenceId == referenceId && t.type == ty && t.isDeleted == false

/-- `parseFloat(x.toString())` on a stored JavaScript number: the value
itself, or NaN. -/
def parseFloat : JsNum → Option Int
  | .num q => some q
  | .nan => none

/-- Error object built at lines 28-30. -/
def notFoundError : ErrorType :=
  ⟨"NotFoundError", "Wallet not found", none⟩

/-- Error object built at lines 43-48; the message interpolates the
reference id. -/
def duplicateError (r : String) : ErrorType :=
  ⟨"DuplicateTransactionError", "Transaction already exists for reference " ++ r, none⟩

/-- Error object built at line 56. -/
def invalidDataError : ErrorType :=
  ⟨"InvalidDataError", "Balance or amount is invalid", none⟩

/-- Error object built at line 60. -/
def invalidAmountError : ErrorType :=
  ⟨"InvalidAmountError", "Amount cannot be negative", none⟩

/-- Error object built at lines 91-94. -/
def insufficientFundsError : ErrorType :=
  ⟨"InsufficientFundsError", "Insufficient wallet balance", none⟩

/-- Error object built at lines 103-106. -/
def invalidTypeError : ErrorType :=
  ⟨"InvalidTypeError", "Transaction type must be PAY_SERVICE or DEPOSIT", none⟩

/-- The catch-all at lines 124-130: every error propagating out of
`createTransactionRepo` is rebuilt as
`new ErrorType(error.name || "TransactionCreationError",
error.message || "Failed to create transaction", error.code)`.
JavaScript `||` falls through only on a falsy (here: empty or absent)
name or message, so a non-empty original name is preserved. -/
def wrapError (e : ErrorType) : ErrorType :=
  ⟨if e.name = "" then "TransactionCreationError" else e.name,
   if e.message = "" then "Failed to create transaction" else e.message,
   e.code⟩

/-- The validation reads at lines 25-61.  They run against the `Db` the
call can see and happen before line 64, i.e. before any engine-owned
transaction exists.  Returns the parsed balance and amount on success. -/
def checksPhase (db : Db) (data : TxData) : Except ErrorType (Int × Int) :=
  match findWallet db data.walletId with
  | none => .error notFoundError
  | some wallet =>
    if refTruthy data.referenceId && dupExists db data.referenceId data.type then
      .error (duplicateError ((data.referenceId).getD ""))
    else
      match parseFloat wallet.balance, parseFloat data.amount with
      | some balance, some amount =>
        if amount < 0 then .error invalidAmountError
        else .ok (balance, amount)
      | _, _ => .error invalidDataError

/-- The row built by `TransactionModel.create` at lines 67-87: the input
fields plus `isDeleted := false`, a fresh id and the creation clock. -/
def newRow (db : Db) (data : TxData) : TransactionRow :=
  ⟨db.nextId, data.walletId, data.amount, data.status, data.type,
   data.referenceId, false, db.now⟩

/-- Insert a freshly created row into the transaction table, advancing
the id counter and the clock. -/
def insertRow (db : Db) (row : TransactionRow) : Db :=
  ⟨db.wallets, db.transactions ++ [row], db.nextId + 1, db.now + 1⟩

/-- `wallet.save({transaction})` at line 109: persist the new balance of
the wallet fetched at line 25. -/
def saveWallet (db : Db) (walletId : Nat) (newBalance : Int) : Db :=
  ⟨db.wallets.map fun w =>
      if w.id == walletId then ⟨w.id, JsNum.num newBalance⟩ else w,
   db.transactions, db.nextId, db.now⟩

/-- The type dispatch at lines 89-107, computing the new balance from
the balance and amount parsed during the checks phase. -/
def applyType (ty : TransactionType) (balance amount : Int) : Except ErrorType Int :=
  match ty with
  | .PAY_SERVICE =>
    if balance < amount then .error insufficientFundsError
    else .ok (balance - amount)
  | .DEPOSIT => .ok (balance + amount)
  | .REFUND_SERVICE => .ok (balance + amount)
  | .other _ => .error invalidTypeError

/-- The write body at lines 67-109, acting on the state the write is
applied to: create the Transaction row, then branch on type and save the
wallet.  On an error the row created at line 67 is already in the
state. -/
def writeBody (db : Db) (data : TxData) (balance amount : Int) :
    Except ErrorType TransactionRow × Db :=
  let row := newRow db data
  let db1 := insertRow db row
  match applyType data.type balance amount with
  | .error e => (.error e, db1)
  | .ok nb => (.ok row, saveWallet db1 data.walletId nb)

/-- `createTransactionRepo` (lines 14-131).  `callerUow = true` models a
caller-supplied `_transaction`: `db` is the caller's pending state, the
engine neither commits nor rolls back, and an error raised after the
`TransactionModel.create` leaves the tentative row in the pending state.
`callerUow = false` models the engine opening its own transaction at
line 64: validation reads happen against the committed `db` before the
transaction exists, success commits the write body, and any error after
the open rolls the committed state back to `db`.  Every propagating
error passes through the catch-all wrapper (lines 124-130). -/
def createTransactionRepo (db : Db) (callerUow : Bool) (data : TxData) : TxOutcome :=
  match checksPhase db data with
  | .error e => ⟨.error (wrapError e), db, []⟩
  | .ok (balance, amount) =>
    match writeBody db data balance amount with
    | (.error e, db1) =>
      if callerUow then ⟨.error (wrapError e), db1, []⟩
      else ⟨.error (wrapError e), db, [.opened, .rolledBack]⟩
    | (.ok row, db2) =>
      if callerUow then ⟨.ok row, db2, []⟩
      else ⟨.ok row, db2, [.opened, .committed]⟩

/-- Two engine-owned `createTransactionRepo` calls interleaved so that
both validation phases run before either commit.  This schedule is
reachable because the duplicate check and wallet read (lines 25-61) use
`_transaction` — undefined on this path — and therefore run outside the
transaction opened at line 64: each call validates against the same
committed state, then the write bodies commit one after the other, each
using the balance its own checks phase parsed. -/
def interleavedPair (db : Db) (dataA dataB : TxData) :
    Except ErrorType TransactionRow × Except ErrorType TransactionRow × Db :=
  match checksPhase db dataA, checksPhase db dataB with
  | .error eA, .error eB => (.error (wrapError eA), .error (wrapError eB), db)
  | .error eA, .ok (bB, aB) =>
    match writeBody db dataB bB aB with
    | (.error eB, _) => (.error (wrapError eA), .error (wrapError eB), db)
    | (.ok rowB, db1) => (.error (wrapError eA), .ok rowB, db1)
  | .ok (bA, aA), .error eB =>
    match writeBody db dataA bA aA with
    | (.error eA, _) => (.error (wrapError eA), .error (wrapError eB), db)
    | (.ok rowA, db1) => (.ok rowA, .error (wrapError eB), db1)
  | .ok (bA, aA), .ok (bB, aB) =>
    match writeBody db dataA bA aA with
    | (.error eA, _) =>
      match writeBody db dataB bB aB with
      | (.error eB, _) => (.error (wrapError eA), .error (wrapError eB), db)
      | (.ok rowB, db1) => (.error (wrapError eA), .ok rowB, db1)
    | (.ok rowA, db1) =>
      match writeBody db1 dataB bB aB with
      | (.error eB, _) => (.ok rowA, .error (wrapError eB), db1)
      | (.ok rowB, db2) => (.ok rowA, .ok rowB, db2)

/-- Filter object of `getListTransactionRepo` (lines 133-141).
`start_date`/`end_date` are creation-time stamps. -/
structure ListFilters : Type where
  walletId : Option Nat
  status : Option TransactionStatus
  type : Option TransactionType
  start_date : Option Nat
  end_date : Option Nat
  page : Option Nat
  limit : Option Nat

/-- The `where` object built at lines 143-162, as a predicate on rows.
`isDeleted: false` is unconditional; `if (filters.walletId)` is
JavaScript-truthy, so a supplied walletId of `0` adds no condition; the
enum-valued status/type filters are truthy whenever present (the enum
values are non-empty strings); a present date bound is an inclusive
`createdAt` comparison (`Op.gte`/`Op.lte`). -/
def matchesWhere (f : ListFilters) (t : TransactionRow) : Bool :=
  t.isDeleted == false
  && (match f.walletId with
      | some w => if w == 0 then true else t.walletId == w
      | none => true)
  && (match f.status with
      | some s => t.status == s
      | none => true)
  && (match f.type with
      | some ty => t.type == ty
      | none => true)
  && (match f.start_date with
      | some s => s ≤ t.createdAt
      | none => true)
  && (match f.end_date with
      | some e => t.createdAt ≤ e
      | none => true)

/-- Stable insertion into a list sorted by `createdAt` descending. -/
def insertDesc (r : TransactionRow) : List TransactionRow → List TransactionRow
  | [] => [r]
  | x :: xs =>
    if r.createdAt ≤ x.createdAt then x :: insertDesc r xs
    else r :: x :: xs

/-- `order: [["createdAt", "DESC"]]` at line 166: sort rows by creation
time descending (stable insertion sort). -/
def sortDesc : List TransactionRow → List TransactionRow
  | [] => []
  | x :: xs => insertDesc x (sortDesc xs)

/-- `getListTransactionRepo` (lines 133-202): count the filtered set,
then fetch it ordered by creation time descending, slicing with
`offset (page-1)*limit, limit` exactly when both `page` and `limit` are
present and positive (lines 187-195). -/
def getListTransactionRepo (db : Db) (f : ListFilters) :
    List TransactionRow × Nat :=
  let filtered := db.transactions.filter (matchesWhere f)
  let total := filtered.length
  let sorted := sortDesc filtered
  let txs :=
    match f.page, f.limit with
    | some p, some l =>
      if 0 < p ∧ 0 < l then (sorted.drop ((p - 1) * l)).take l else sorted
    | _, _ => sorted
  (txs, total)

/-- `getTransactionByIdRepo` (lines 204-218): fetch by primary key,
`NotFound` when absent (deleted or not). -/
def getTransactionByIdRepo (db : Db) (transactionId : Nat) :
    Except ErrorType TransactionRow :=
  match db.transactions.find? fun t => t.id == transactionId with
  | none => .error (wrapError ⟨"NotFoundError", "Transaction not found", none⟩)
  | some t => .ok t

/-- The balance column of a wallet, as read back from a database state. -/
def walletBalance (db : Db) (walletId : Nat) : Option JsNum :=
  (findWallet db walletId).map Wallet.balance

/-- The spec invariant `balance >= 0` for every wallet whose stored
balance parses as a number. -/
def walletInvariant (db : Db) : Prop :=
  ∀ w ∈ db.wallets, ∀ q : Int, w.balance = JsNum.num q → 0 ≤ q

/-- The spec idempotency invariant, amended to the code's truthiness
guard: for every non-empty reference string and type, at most one
non-deleted transaction row carries that pair. -/
def idempotencyInvariant (db : Db) : Prop :=
  ∀ (r : String) (ty : TransactionType), r ≠ "" →
    (db.transactions.filter fun t =>
      t.referenceId == some r && t.type == ty && t.isDeleted == false).length ≤ 1

theorem createTransactionRepo_spec (db : Db) (cu : Bool) (data : TxData) :
    (∃ e, checksPhase db data = .error e ∧
       createTransactionRepo db cu data = ⟨.error (wrapError e), db, []⟩) ∨
    (∃ b a e, checksPhase db data = .ok (b, a) ∧
       applyType data.type b a = .error e ∧
       createTransactionRepo db cu data =
         ⟨.error (wrapError e),
          if cu then insertRow db (newRow db data) else db,
          if cu then [] else [.opened, .rolledBack]⟩) ∨
    (∃ b a nb, checksPhase db data = .ok (b, a) ∧
       applyType data.type b a = .ok nb ∧
       createTransactionRepo db cu data =
         ⟨.ok (newRow db data),
          saveWallet (insertRow db (newRow db data)) data.walletId nb,
          if cu then [] else [.opened, .committed]⟩) := by
  cases h : checksPhase db data with
  | error e =>
    exact Or.inl ⟨e, rfl, by simp [createTransactionRepo, h]⟩
  | ok p =>
    obtain ⟨b, a⟩ := p
    cases h2 : applyType data.type b a with
    | error e =>
      refine Or.inr (Or.inl ⟨b, a, e, rfl, ?_, ?_⟩)
      · exact h2
      · cases cu <;> simp [createTransactionRepo, writeBody, h, h2]
    | ok nb =>
      refine Or.inr (Or.inr ⟨b, a, nb, rfl, ?_, ?_⟩)
      · exact h2
      · cases cu <;> simp [createTransactionRepo, writeBody, h, h2]

theorem parseFloat_eq_some (j : JsNum) (q : Int) (h : parseFloat j = some q) :
    j = JsNum.num q := by
  cases j with
  | num q2 => simp [parseFloat] at h; rw [h]
  | nan => exact absurd h (by simp [parseFloat])

theorem checksPhase_ok (db : Db) (data : TxData) (b a : Int)
    (h : checksPhase db data = .ok (b, a)) :
    ∃ w, findWallet db data.walletId = some w ∧
      (refTruthy data.referenceId && dupExists db data.referenceId data.type) = false ∧
      w.balance = JsNum.num b ∧ data.amount = JsNum.num a ∧ 0 ≤ a := by
  unfold checksPhase at h
  split at h
  · exact absurd h (by simp)
  next w hw =>
    refine ⟨w, hw, ?_⟩
    split at h
    · exact absurd h (by simp [duplicateError])
    next hdup =>
      refine ⟨by simpa using hdup, ?_⟩
      split at h
      next balance amount hb ha =>
        split at h
        · exact absurd h (by simp)
        next hneg =>
          simp only [Except.ok.injEq, Prod.mk.injEq] at h
          obtain ⟨h1, h2⟩ := h
          subst h1; subst h2
          exact ⟨parseFloat_eq_some _ _ hb, parseFloat_eq_some _ _ ha,
            Int.not_lt.mp hneg⟩
      next => exact absurd h (by simp)

theorem checksPhase_dup (db : Db) (data : TxData) (w : Wallet) (r : String)
    (hw : findWallet db data.walletId = some w)
    (hr : data.referenceId = some r) (hne : r ≠ "")
    (hdup : dupExists db data.referenceId data.type = true) :
    checksPhase db data = .error (duplicateError r) := by
  have ht : refTruthy data.referenceId = true := by
    rw [hr]; simp [refTruthy, hne]
  have hcond : (refTruthy data.referenceId && dupExists db data.referenceId data.type) = true := by
    rw [ht, hdup]; rfl
  simp only [checksPhase, hw]
  rw [if_pos hcond, hr]
  rfl

theorem applyType_ok (ty : TransactionType) (b a nb : Int)
    (h : applyType ty b a = .ok nb) :
    (ty = .PAY_SERVICE ∧ a ≤ b ∧ nb = b - a) ∨
    ((ty = .DEPOSIT ∨ ty = .REFUND_SERVICE) ∧ nb = b + a) := by
  cases ty with
  | PAY_SERVICE =>
    left
    unfold applyType at h
    by_cases hlt : b < a
    · rw [if_pos hlt] at h; exact absurd h (by simp)
    · rw [if_neg hlt] at h
      simp only [Except.ok.injEq] at h
      exact ⟨rfl, Int.not_lt.mp hlt, h.symm⟩
  | DEPOSIT =>
    right
    unfold applyType at h
    simp only [Except.ok.injEq] at h
    exact ⟨Or.inl rfl, h.symm⟩
  | REFUND_SERVICE =>
    right
    unfold applyType at h
    simp only [Except.ok.injEq] at h
    exact ⟨Or.inr rfl, h.symm⟩
  | other s => exact absurd h (by simp [applyType])

theorem applyType_error (ty : TransactionType) (b a : Int) (e : ErrorType)
    (h : applyType ty b a = .error e) :
    (ty = .PAY_SERVICE ∧ b < a ∧ e = insufficientFundsError) ∨
    ((∃ s, ty = .other s) ∧ e = invalidTypeError) := by
  cases ty with
  | PAY_SERVICE =>
    left
    unfold applyType at h
    by_cases hlt : b < a
    · rw [if_pos hlt] at h
      simp only [Except.error.injEq] at h
      exact ⟨rfl, hlt, h.symm⟩
    · rw [if_neg hlt] at h; exact absurd h (by simp)
  | DEPOSIT => exact absurd h (by simp [applyType])
  | REFUND_SERVICE => exact absurd h (by simp [applyType])
  | other s =>
    right
    unfold applyType at h
    simp only [Except.error.injEq] at h
    exact ⟨⟨s, rfl⟩, h.symm⟩

deriving instance DecidableEq for Except

theorem findWallet_mem (db : Db) (wid : Nat) (w : Wallet)
    (h : findWallet db wid = some w) : w ∈ db.wallets :=
  List.mem_of_find?_eq_some h

theorem find?_map_save (l : List Wallet) (wid : Nat) (nb : Int) (w : Wallet)
    (h : l.find? (fun x => x.id == wid) = some w) :
    (l.map fun x => if x.id == wid then ⟨x.id, JsNum.num nb⟩ else x).find?
      (fun x => x.id == wid) = some ⟨w.id, JsNum.num nb⟩ := by
  induction l with
  | nil => exact absurd h (by simp)
  | cons x xs ih =>
    by_cases hx : (x.id == wid) = true
    · have hx2 : (fun (y : Wallet) => y.id == wid) x = true := hx
      rw [List.find?_cons_of_pos xs hx2] at h
      obtain rfl : x = w := by simpa using h
      simp only [List.map_cons, if_pos hx]
      exact List.find?_cons_of_pos _ hx
    · have hx2 : ¬ (fun (y : Wallet) => y.id == wid) x = true := hx
      rw [List.find?_cons_of_neg xs hx2] at h
      simp only [List.map_cons, if_neg hx]
      have step : List.find? (fun y : Wallet => y.id == wid)
          (x :: List.map (fun z : Wallet =>
            if z.id == wid then ⟨z.id, JsNum.num nb⟩ else z) xs)
        = List.find? (fun y : Wallet => y.id == wid)
            (List.map (fun z : Wallet =>
              if z.id == wid then ⟨z.id, JsNum.num nb⟩ else z) xs) :=
        List.find?_cons_of_neg _ hx2
      rw [step]
      exact ih h

/-- Reading back the saved wallet: after `wallet.save` the balance column
of the target wallet holds the new value. -/
theorem walletBalance_saveWallet (db : Db) (wid : Nat) (nb : Int) (w : Wallet)
    (h : findWallet db wid = some w) :
    walletBalance (saveWallet db wid nb) wid = some (JsNum.num nb) := by
  unfold walletBalance findWallet saveWallet
  unfold findWallet at h
  rw [find?_map_save db.wallets wid nb w h]
  rfl

/-- C1 (amended).  All-or-nothing holds for the unit-of-work the engine
itself owns: on any error the committed state is exactly the input
state, and on success exactly one Transaction row is appended and
exactly one wallet's balance is rewritten.  When the caller supplies
the unit-of-work handle, the engine still never changes any balance on
an error, but the tentatively created Transaction row may remain in the
caller's pending state (the caller, not the engine, decides whether it
ever commits). -/
theorem claim_C1_atomicity (db : Db) (data : TxData) :
    (∀ e, (createTransactionRepo db false data).result = .error e →
       (createTransactionRepo db false data).db = db) ∧
    (∀ row, (createTransactionRepo db false data).result = .ok row →
       row = newRow db data ∧
       (createTransactionRepo db false data).db.transactions
         = db.transactions ++ [row] ∧
       ∃ nb, (createTransactionRepo db false data).db.wallets
         = db.wallets.map fun w =>
             if w.id == data.walletId then ⟨w.id, JsNum.num nb⟩ else w) ∧
    (∀ e, (createTransactionRepo db true data).result = .error e →
       (createTransactionRepo db true data).db.wallets = db.wallets ∧
       ((createTransactionRepo db true data).db.transactions = db.transactions ∨
        (createTransactionRepo db true data).db.transactions
          = db.transactions ++ [newRow db data])) := by
  refine ⟨?_, ?_, ?_⟩
  · intro e he
    rcases createTransactionRepo_spec db false data with
      ⟨e0, _, hout⟩ | ⟨b, a, e0, _, _, hout⟩ | ⟨b, a, nb, _, _, hout⟩
    · rw [hout]
    · rw [hout]; rfl
    · rw [hout] at he; exact absurd he (by simp)
  · intro row hrow
    rcases createTransactionRepo_spec db false data with
      ⟨e0, _, hout⟩ | ⟨b, a, e0, _, _, hout⟩ | ⟨b, a, nb, _, _, hout⟩
    · rw [hout] at hrow; exact absurd hrow (by simp)
    · rw [hout] at hrow; exact absurd hrow (by simp)
    · rw [hout] at hrow ⊢
      obtain rfl : newRow db data = row := by simpa using hrow
      exact ⟨rfl, by simp [saveWallet, insertRow], nb,
        by simp [saveWallet, insertRow]⟩
  · intro e he
    rcases createTransactionRepo_spec db true data with
      ⟨e0, _, hout⟩ | ⟨b, a, e0, _, _, hout⟩ | ⟨b, a, nb, _, _, hout⟩
    · rw [hout]; exact ⟨rfl, Or.inl rfl⟩
    · rw [hout]
      exact ⟨by simp [insertRow], Or.inr (by simp [insertRow])⟩
    · rw [hout] at he; exact absurd he (by simp)

/-- C1 witness: a concrete engine-owned deposit appends exactly the one
created row. -/
theorem claim_C1_atomicity_witness :
    (createTransactionRepo ⟨[⟨1, .num 100⟩], [], 10, 5⟩ false
        ⟨1, .num 30, .PENDING, .DEPOSIT, some "d1"⟩).db.transactions
      = [⟨10, 1, .num 30, .PENDING, .DEPOSIT, some "d1", false, 5⟩] :=
  ((claim_C1_atomicity ⟨[⟨1, .num 100⟩], [], 10, 5⟩
      ⟨1, .num 30, .PENDING, .DEPOSIT, some "d1"⟩).2.1
    ⟨10, 1, .num 30, .PENDING, .DEPOSIT, some "d1", false, 5⟩ (by decide)).2.1

/-- C1 counterexample: with a caller-supplied unit-of-work handle, a
`PAY_SERVICE` for 200 on balance 100 fails with `InsufficientFundsError`,
yet the tentatively created Transaction row is still present in the
caller's pending state afterwards — the claim's "no row observable,
including when the caller supplied the unit-of-work handle" is false. -/
theorem claim_C1_counterexample :
    (createTransactionRepo ⟨[⟨1, .num 100⟩], [], 10, 5⟩ true
        ⟨1, .num 200, .PENDING, .PAY_SERVICE, some "p1"⟩).result
      = .error insufficientFundsError ∧
    (createTransactionRepo ⟨[⟨1, .num 100⟩], [], 10, 5⟩ true
        ⟨1, .num 200, .PENDING, .PAY_SERVICE, some "p1"⟩).db.transactions
      = [⟨10, 1, .num 200, .PENDING, .PAY_SERVICE, some "p1", false, 5⟩] := by
  constructor
  · decide
  · decide

theorem wrapError_eq_self (e : ErrorType) (h1 : e.name ≠ "") (h2 : e.message ≠ "") :
    wrapError e = e := by
  unfold wrapError
  rw [if_neg h1, if_neg h2]

theorem walletInvariant_saveWallet (db : Db) (wid : Nat) (nb : Int)
    (hdb : walletInvariant db) (hnb : 0 ≤ nb) :
    walletInvariant (saveWallet db wid nb) := by
  intro w hw q hq
  simp only [saveWallet, List.mem_map] at hw
  obtain ⟨x, hx, hxe⟩ := hw
  subst hxe
  by_cases hid : (x.id == wid) = true
  · rw [if_pos hid] at hq
    obtain rfl : nb = q := by simpa using hq
    exact hnb
  · rw [if_neg hid] at hq
    exact hdb x hx q hq

theorem walletInvariant_insertRow (db : Db) (row : TransactionRow)
    (hdb : walletInvariant db) : walletInvariant (insertRow db row) :=
  fun w hw => hdb w hw

theorem checksPhase_eval (db : Db) (data : TxData) (w : Wallet) (b a : Int)
    (hw : findWallet db data.walletId = some w)
    (hdup : (refTruthy data.referenceId && dupExists db data.referenceId data.type) = false)
    (hb : w.balance = JsNum.num b)
    (ha : data.amount = JsNum.num a)
    (h0 : 0 ≤ a) :
    checksPhase db data = .ok (b, a) := by
  simp only [checksPhase, hw]
  rw [if_neg (by simp [hdup]), hb, ha]
  simp only [parseFloat]
  rw [if_neg (Int.not_lt.mpr h0)]

/-- C2: wallet balances never go negative.  (a) Every single
`createTransactionRepo` call — engine-owned or caller-owned unit of
work — preserves the `balance >= 0` invariant of every wallet in the
store; (b) hence every sequence of committed (engine-owned) calls
preserves it; (c) a `PAY_SERVICE` whose (non-negative) amount exceeds
the balance of the existing target wallet, with the duplicate pre-check
passing, fails with `InsufficientFundsError` and changes no wallet. -/
theorem claim_C2_balance_nonnegative :
    (∀ (db : Db) (cu : Bool) (data : TxData), walletInvariant db →
       walletInvariant (createTransactionRepo db cu data).db) ∧
    (∀ (db : Db) (ops : List TxData), walletInvariant db →
       walletInvariant
         (ops.foldl (fun d p => (createTransactionRepo d false p).db) db)) ∧
    (∀ (db : Db) (cu : Bool) (data : TxData) (w : Wallet) (b a : Int),
       findWallet db data.walletId = some w →
       w.balance = JsNum.num b →
       data.amount = JsNum.num a →
       (refTruthy data.referenceId && dupExists db data.referenceId data.type) = false →
       data.type = .PAY_SERVICE →
       0 ≤ a → b < a →
       (createTransactionRepo db cu data).result = .error insufficientFundsError ∧
       (createTransactionRepo db cu data).db.wallets = db.wallets) := by
  have hpres : ∀ (db : Db) (cu : Bool) (data : TxData), walletInvariant db →
      walletInvariant (createTransactionRepo db cu data).db := by
    intro db cu data hdb
    rcases createTransactionRepo_spec db cu data with
      ⟨e0, _, hout⟩ | ⟨b, a, e0, _, _, hout⟩ | ⟨b, a, nb, hchecks, happly, hout⟩
    · rw [hout]; exact hdb
    · rw [hout]
      cases cu
      · simpa using hdb
      · simpa using walletInvariant_insertRow db _ hdb
    · rw [hout]
      obtain ⟨w, hw, _, hb, ha, h0a⟩ := checksPhase_ok db data b a hchecks
      have h0b : 0 ≤ b := hdb w (findWallet_mem db data.walletId w hw) b hb
      have h0nb : 0 ≤ nb := by
        rcases applyType_ok data.type b a nb happly with
          ⟨_, hab, rfl⟩ | ⟨_, rfl⟩
        · exact Int.sub_nonneg.mpr hab
        · exact Int.add_nonneg h0b h0a
      exact walletInvariant_saveWallet _ data.walletId nb
        (walletInvariant_insertRow db _ hdb) h0nb
  refine ⟨hpres, ?_, ?_⟩
  · intro db ops
    induction ops generalizing db with
    | nil => exact fun h => h
    | cons p ps ih =>
      intro hdb
      exact ih _ (hpres db false p hdb)
  · intro db cu data w b a hw hb ha hdup htype h0a hba
    have hchecks : checksPhase db data = .ok (b, a) :=
      checksPhase_eval db data w b a hw hdup hb ha h0a
    have happly : applyType data.type b a = .error insufficientFundsError := by
      rw [htype]
      unfold applyType
      rw [if_pos hba]
    rcases createTransactionRepo_spec db cu data with
      ⟨e0, hc, hout⟩ | ⟨b2, a2, e0, hc, hap, hout⟩ | ⟨b2, a2, nb, hc, hap, hout⟩
    · rw [hchecks] at hc; exact absurd hc (by simp)
    · rw [hchecks] at hc
      obtain ⟨rfl, rfl⟩ : b2 = b ∧ a2 = a := by simpa using hc.symm
      rw [happly] at hap
      obtain rfl : e0 = insufficientFundsError := by simpa using hap.symm
      rw [hout]
      refine ⟨?_, ?_⟩
      · simp [wrapError_eq_self insufficientFundsError (by decide) (by decide)]
      · cases cu <;> simp [insertRow]
    · rw [hchecks] at hc
      obtain ⟨rfl, rfl⟩ : b2 = b ∧ a2 = a := by simpa using hc.symm
      rw [happly] at hap
      exact absurd hap (by simp)

/-- C2 witness: paying 200 from balance 70 fails with
`InsufficientFundsError` and leaves the wallet store unchanged. -/
theorem claim_C2_balance_nonnegative_witness :
    (createTransactionRepo ⟨[⟨1, .num 70⟩], [], 3, 9⟩ false
        ⟨1, .num 200, .PENDING, .PAY_SERVICE, none⟩).result
      = .error insufficientFundsError ∧
    (createTransactionRepo ⟨[⟨1, .num 70⟩], [], 3, 9⟩ false
        ⟨1, .num 200, .PENDING, .PAY_SERVICE, none⟩).db.wallets
      = [⟨1, .num 70⟩] :=
  claim_C2_balance_nonnegative.2.2 ⟨[⟨1, .num 70⟩], [], 3, 9⟩ false
    ⟨1, .num 200, .PENDING, .PAY_SERVICE, none⟩ ⟨1, .num 70⟩ 70 200
    (by decide) rfl rfl (by decide) rfl (by decide) (by decide)

theorem dupExists_false_filter (db : Db) (ref : Option String) (ty : TransactionType)
    (h : dupExists db ref ty = false) :
    db.transactions.filter (fun t =>
      t.referenceId == ref && t.type == ty && t.isDeleted == false) = [] := by
  rw [List.filter_eq_nil_iff]
  intro t ht
  rw [dupExists, List.any_eq_false] at h
  exact h t ht

theorem idempotencyInvariant_insert (db : Db) (data : TxData)
    (hdup : (refTruthy data.referenceId && dupExists db data.referenceId data.type) = false)
    (hdb : idempotencyInvariant db) :
    idempotencyInvariant (insertRow db (newRow db data)) := by
  intro r ty hr
  simp only [insertRow, List.filter_append, List.length_append]
  by_cases hmatch : ((newRow db data).referenceId == some r
      && (newRow db data).type == ty && (newRow db data).isDeleted == false) = true
  · have hrefs : data.referenceId = some r := by
      simp only [newRow, Bool.and_eq_true, beq_iff_eq] at hmatch
      exact hmatch.1.1
    have hty : data.type = ty := by
      simp only [newRow, Bool.and_eq_true, beq_iff_eq] at hmatch
      exact hmatch.1.2
    have htruthy : refTruthy data.referenceId = true := by
      rw [hrefs]; simp [refTruthy, hr]
    have hdupf : dupExists db data.referenceId data.type = false := by
      rw [htruthy, Bool.true_and] at hdup
      exact hdup
    rw [hrefs, hty] at hdupf
    have hfilter := dupExists_false_filter db (some r) ty hdupf
    rw [hfilter]
    simp only [List.length_nil, Nat.zero_add]
    exact Nat.le_trans (List.length_filter_le _ _) (by simp)
  · rw [Bool.not_eq_true] at hmatch
    have hmatch2 : ((newRow db data).referenceId == some r
        && (newRow db data).type == ty && !(newRow db data).isDeleted) = false := by
      simpa using hmatch
    have : List.filter (fun t =>
        t.referenceId == some r && t.type == ty && t.isDeleted == false)
        [newRow db data] = [] := by
      simp [List.filter, hmatch2]
    rw [this]
    simpa using hdb r ty hr

theorem idempotencyInvariant_saveWallet (db : Db) (wid : Nat) (nb : Int)
    (hdb : idempotencyInvariant db) :
    idempotencyInvariant (saveWallet db wid nb) :=
  fun r ty hr => hdb r ty hr

/-- C3 (amended): the idempotency guard, restricted to the code's
JavaScript truthiness: for a call supplying a non-EMPTY referenceId whose
target wallet exists, an existing non-deleted Transaction with the same
`(referenceId, type)` pair makes the call fail with
`DuplicateTransactionError` before any mutation and before any
unit-of-work action; consequently (sequentially) at most one non-deleted
Transaction per non-empty `(referenceId, type)` pair ever exists.  A
supplied but EMPTY referenceId (`""`, non-null) skips the guard
entirely (see the counterexample). -/
theorem claim_C3_idempotency :
    (∀ (db : Db) (cu : Bool) (data : TxData) (w : Wallet) (r : String),
       findWallet db data.walletId = some w →
       data.referenceId = some r → r ≠ "" →
       dupExists db data.referenceId data.type = true →
       (createTransactionRepo db cu data).result
         = .error (wrapError (duplicateError r)) ∧
       (wrapError (duplicateError r)).name = "DuplicateTransactionError" ∧
       (createTransactionRepo db cu data).db = db ∧
       (createTransactionRepo db cu data).uow = []) ∧
    (∀ (db : Db) (cu : Bool) (data : TxData),
       idempotencyInvariant db →
       idempotencyInvariant (createTransactionRepo db cu data).db) := by
  constructor
  · intro db cu data w r hw hr hne hdup
    have hchecks : checksPhase db data = .error (duplicateError r) :=
      checksPhase_dup db data w r hw hr hne hdup
    refine ⟨?_, rfl, ?_, ?_⟩ <;> simp [createTransactionRepo, hchecks]
  · intro db cu data hdb
    rcases createTransactionRepo_spec db cu data with
      ⟨e0, _, hout⟩ | ⟨b, a, e0, hchecks, _, hout⟩ | ⟨b, a, nb, hchecks, _, hout⟩
    · rw [hout]; exact hdb
    · rw [hout]
      obtain ⟨w, hw, hdupf, _⟩ := checksPhase_ok db data b a hchecks
      cases cu
      · simpa using hdb
      · simpa using idempotencyInvariant_insert db data hdupf hdb
    · rw [hout]
      obtain ⟨w, hw, hdupf, _⟩ := checksPhase_ok db data b a hchecks
      exact idempotencyInvariant_saveWallet _ data.walletId nb
        (idempotencyInvariant_insert db data hdupf hdb)

/-- C3 witness: a repeated deposit with the same non-empty referenceId
"ref1" fails with `DuplicateTransactionError` and mutates nothing. -/
theorem claim_C3_idempotency_witness :
    (createTransactionRepo ⟨[⟨1, .num 100⟩],
        [⟨0, 1, .num 30, .PENDING, .DEPOSIT, some "ref1", false, 0⟩], 10, 5⟩ false
        ⟨1, .num 30, .PENDING, .DEPOSIT, some "ref1"⟩).result
      = .error (wrapError (duplicateError "ref1")) ∧
    (createTransactionRepo ⟨[⟨1, .num 100⟩],
        [⟨0, 1, .num 30, .PENDING, .DEPOSIT, some "ref1", false, 0⟩], 10, 5⟩ false
        ⟨1, .num 30, .PENDING, .DEPOSIT, some "ref1"⟩).db
      = ⟨[⟨1, .num 100⟩],
         [⟨0, 1, .num 30, .PENDING, .DEPOSIT, some "ref1", false, 0⟩], 10, 5⟩ := by
  have h := claim_C3_idempotency.1
    ⟨[⟨1, .num 100⟩],
      [⟨0, 1, .num 30, .PENDING, .DEPOSIT, some "ref1", false, 0⟩], 10, 5⟩ false
    ⟨1, .num 30, .PENDING, .DEPOSIT, some "ref1"⟩ ⟨1, .num 100⟩ "ref1"
    (by decide) rfl (by decide) (by decide)
  exact ⟨h.1, h.2.2.1⟩

/-- C3 counterexample: `referenceId = ""` is non-null, a non-deleted
Transaction with the pair `("", DEPOSIT)` already exists, yet the call
succeeds (JavaScript truthiness at line 33 skips the check), leaving two
non-deleted rows with the same non-null pair. -/
theorem claim_C3_counterexample :
    (createTransactionRepo ⟨[⟨1, .num 100⟩],
        [⟨0, 1, .num 5, .PENDING, .DEPOSIT, some "", false, 0⟩], 10, 5⟩ false
        ⟨1, .num 5, .PENDING, .DEPOSIT, some ""⟩).result
      = .ok ⟨10, 1, .num 5, .PENDING, .DEPOSIT, some "", false, 5⟩ ∧
    ((createTransactionRepo ⟨[⟨1, .num 100⟩],
        [⟨0, 1, .num 5, .PENDING, .DEPOSIT, some "", false, 0⟩], 10, 5⟩ false
        ⟨1, .num 5, .PENDING, .DEPOSIT, some ""⟩).db.transactions.filter
      (fun t => t.referenceId == some "" && t.type == TransactionType.DEPOSIT
         && t.isDeleted == false)).length = 2 := by
  constructor
  · decide
  · decide

/-- C4 (amended): for a validated call (wallet exists, duplicate
pre-check passes, numeric non-negative amount): `DEPOSIT` and
`REFUND_SERVICE` succeed with new balance `b + a`; `PAY_SERVICE` with
`a <= b` succeeds with new balance `b - a`; any other type fails with
`InvalidTypeError` and never changes a balance — but "mutates nothing"
holds unconditionally only for the engine-owned unit of work: with a
caller-supplied handle the tentatively created row stays pending (see
the counterexample). -/
theorem claim_C4_type_direction :
    ∀ (db : Db) (cu : Bool) (data : TxData) (w : Wallet) (b a : Int),
      findWallet db data.walletId = some w →
      w.balance = JsNum.num b →
      data.amount = JsNum.num a →
      (refTruthy data.referenceId && dupExists db data.referenceId data.type) = false →
      0 ≤ a →
      ((data.type = .DEPOSIT ∨ data.type = .REFUND_SERVICE) →
         (createTransactionRepo db cu data).result = .ok (newRow db data) ∧
         walletBalance (createTransactionRepo db cu data).db data.walletId
           = some (JsNum.num (b + a))) ∧
      (data.type = .PAY_SERVICE → a ≤ b →
         (createTransactionRepo db cu data).result = .ok (newRow db data) ∧
         walletBalance (createTransactionRepo db cu data).db data.walletId
           = some (JsNum.num (b - a))) ∧
      (∀ s, data.type = .other s →
         (createTransactionRepo db cu data).result = .error invalidTypeError ∧
         (createTransactionRepo db cu data).db.wallets = db.wallets ∧
         (cu = false → (createTransactionRepo db cu data).db = db)) := by
  intro db cu data w b a hw hb ha hdup h0a
  have hchecks : checksPhase db data = .ok (b, a) :=
    checksPhase_eval db data w b a hw hdup hb ha h0a
  have hw2 : findWallet (insertRow db (newRow db data)) data.walletId = some w := hw
  refine ⟨?_, ?_, ?_⟩
  · intro hty
    have happly : applyType data.type b a = .ok (b + a) := by
      rcases hty with h | h <;> rw [h] <;> rfl
    constructor
    · simp [createTransactionRepo, writeBody, hchecks, happly]
      cases cu <;> simp
    · have hbal := walletBalance_saveWallet (insertRow db (newRow db data))
        data.walletId (b + a) w hw2
      simp only [createTransactionRepo, writeBody, hchecks, happly]
      cases cu <;> simpa using hbal
  · intro hty hab
    have happly : applyType data.type b a = .ok (b - a) := by
      rw [hty]
      unfold applyType
      rw [if_neg (Int.not_lt.mpr hab)]
    constructor
    · simp [createTransactionRepo, writeBody, hchecks, happly]
      cases cu <;> simp
    · have hbal := walletBalance_saveWallet (insertRow db (newRow db data))
        data.walletId (b - a) w hw2
      simp only [createTransactionRepo, writeBody, hchecks, happly]
      cases cu <;> simpa using hbal
  · intro s hty
    have happly : applyType data.type b a = .error invalidTypeError := by
      rw [hty]; rfl
    have hwrap : wrapError invalidTypeError = invalidTypeError :=
      wrapError_eq_self invalidTypeError (by decide) (by decide)
    refine ⟨?_, ?_, ?_⟩
    · simp [createTransactionRepo, writeBody, hchecks, happly, hwrap]
      cases cu <;> simp
    · simp only [createTransactionRepo, writeBody, hchecks, happly]
      cases cu <;> simp [insertRow]
    · intro hcu
      subst hcu
      simp [createTransactionRepo, writeBody, hchecks, happly]

/-- C4 witness: a deposit of 30 on balance 100 succeeds and the stored
balance becomes 130. -/
theorem claim_C4_type_direction_witness :
    (createTransactionRepo ⟨[⟨1, .num 100⟩], [], 10, 5⟩ false
        ⟨1, .num 30, .PENDING, .DEPOSIT, none⟩).result
      = .ok (newRow ⟨[⟨1, .num 100⟩], [], 10, 5⟩
          ⟨1, .num 30, .PENDING, .DEPOSIT, none⟩) ∧
    walletBalance (createTransactionRepo ⟨[⟨1, .num 100⟩], [], 10, 5⟩ false
        ⟨1, .num 30, .PENDING, .DEPOSIT, none⟩).db 1
      = some (JsNum.num 130) :=
  (claim_C4_type_direction ⟨[⟨1, .num 100⟩], [], 10, 5⟩ false
      ⟨1, .num 30, .PENDING, .DEPOSIT, none⟩ ⟨1, .num 100⟩ 100 30
      (by decide) rfl rfl (by decide) (by decide)).1 (Or.inl rfl)

/-- C4 counterexample: an unsupported type fails with
`InvalidTypeError`, but with a caller-supplied unit-of-work handle the
call does NOT "mutate nothing": the tentatively created row is left in
the pending state. -/
theorem claim_C4_counterexample :
    (createTransactionRepo ⟨[⟨1, .num 100⟩], [], 10, 5⟩ true
        ⟨1, .num 5, .PENDING, .other "WITHDRAW", some "x1"⟩).result
      = .error invalidTypeError ∧
    (createTransactionRepo ⟨[⟨1, .num 100⟩], [], 10, 5⟩ true
        ⟨1, .num 5, .PENDING, .other "WITHDRAW", some "x1"⟩).db.transactions
      = [⟨10, 1, .num 5, .PENDING, .other "WITHDRAW", some "x1", false, 5⟩] := by
  constructor
  · decide
  · decide

/-- C5: unit-of-work ownership.  With a caller-supplied handle the
engine performs no unit-of-work lifecycle action at all (never commits,
never rolls back), on success and on every error.  When no handle is
supplied, the engine commits exactly on success; on an error it either
failed validation before ever opening its transaction (no action), or it
opened one and rolled it back before propagating. -/
theorem claim_C5_uow_ownership :
    ∀ (db : Db) (data : TxData),
      (createTransactionRepo db true data).uow = [] ∧
      (∀ row, (createTransactionRepo db false data).result = .ok row →
         (createTransactionRepo db false data).uow
           = [UowEvent.opened, UowEvent.committed]) ∧
      (∀ e, (createTransactionRepo db false data).result = .error e →
         (createTransactionRepo db false data).uow = [] ∨
         (createTransactionRepo db false data).uow
           = [UowEvent.opened, UowEvent.rolledBack]) := by
  intro db data
  refine ⟨?_, ?_, ?_⟩
  · rcases createTransactionRepo_spec db true data with
      ⟨e0, _, hout⟩ | ⟨b, a, e0, _, _, hout⟩ | ⟨b, a, nb, _, _, hout⟩ <;>
      simp [hout]
  · intro row hrow
    rcases createTransactionRepo_spec db false data with
      ⟨e0, _, hout⟩ | ⟨b, a, e0, _, _, hout⟩ | ⟨b, a, nb, _, _, hout⟩
    · rw [hout] at hrow; exact absurd hrow (by simp)
    · rw [hout] at hrow; exact absurd hrow (by simp)
    · simp [hout]
  · intro e he
    rcases createTransactionRepo_spec db false data with
      ⟨e0, _, hout⟩ | ⟨b, a, e0, _, _, hout⟩ | ⟨b, a, nb, _, _, hout⟩
    · left; simp [hout]
    · right; simp [hout]
    · rw [hout] at he; exact absurd he (by simp)

/-- C5 witness: concretely, a caller-owned call performs no
unit-of-work action, and an engine-owned successful deposit opens and
commits. -/
theorem claim_C5_uow_ownership_witness :
    (createTransactionRepo ⟨[⟨1, .num 100⟩], [], 10, 5⟩ true
        ⟨1, .num 30, .PENDING, .DEPOSIT, none⟩).uow = [] ∧
    (createTransactionRepo ⟨[⟨1, .num 100⟩], [], 10, 5⟩ false
        ⟨1, .num 30, .PENDING, .DEPOSIT, none⟩).uow
      = [UowEvent.opened, UowEvent.committed] :=
  ⟨(claim_C5_uow_ownership ⟨[⟨1, .num 100⟩], [], 10, 5⟩
      ⟨1, .num 30, .PENDING, .DEPOSIT, none⟩).1,
   (claim_C5_uow_ownership ⟨[⟨1, .num 100⟩], [], 10, 5⟩
      ⟨1, .num 30, .PENDING, .DEPOSIT, none⟩).2.1
     ⟨10, 1, .num 30, .PENDING, .DEPOSIT, none, false, 5⟩ (by decide)⟩

/-- C6 evidence of the code bug.  Two engine-owned calls with identical
`(referenceId = "ref1", type = DEPOSIT)` interleaved so that both
validation phases (lines 25-61, which run outside the transaction
opened at line 64) precede either commit: BOTH calls succeed, the store
ends with two non-deleted rows carrying the same pair, and the balance
shows a lost update (130 instead of 160, each write using its own stale
read of 100).  Sequentially the second call is correctly rejected with
`DuplicateTransactionError`, confirming the race window is exactly the
check-outside-unit-of-work. -/
theorem claim_C6_race_evidence :
    ((interleavedPair ⟨[⟨1, .num 100⟩], [], 10, 5⟩
        ⟨1, .num 30, .PENDING, .DEPOSIT, some "ref1"⟩
        ⟨1, .num 30, .PENDING, .DEPOSIT, some "ref1"⟩).1
      = .ok ⟨10, 1, .num 30, .PENDING, .DEPOSIT, some "ref1", false, 5⟩) ∧
    ((interleavedPair ⟨[⟨1, .num 100⟩], [], 10, 5⟩
        ⟨1, .num 30, .PENDING, .DEPOSIT, some "ref1"⟩
        ⟨1, .num 30, .PENDING, .DEPOSIT, some "ref1"⟩).2.1
      = .ok ⟨11, 1, .num 30, .PENDING, .DEPOSIT, some "ref1", false, 6⟩) ∧
    ((interleavedPair ⟨[⟨1, .num 100⟩], [], 10, 5⟩
        ⟨1, .num 30, .PENDING, .DEPOSIT, some "ref1"⟩
        ⟨1, .num 30, .PENDING, .DEPOSIT, some "ref1"⟩).2.2.transactions.filter
      (fun t => t.referenceId == some "ref1"
         && t.type == TransactionType.DEPOSIT
         && t.isDeleted == false)).length = 2 ∧
    ((interleavedPair ⟨[⟨1, .num 100⟩], [], 10, 5⟩
        ⟨1, .num 30, .PENDING, .DEPOSIT, some "ref1"⟩
        ⟨1, .num 30, .PENDING, .DEPOSIT, some "ref1"⟩).2.2.wallets
      = [⟨1, .num 130⟩]) ∧
    ((createTransactionRepo
        (createTransactionRepo ⟨[⟨1, .num 100⟩], [], 10, 5⟩ false
          ⟨1, .num 30, .PENDING, .DEPOSIT, some "ref1"⟩).db false
        ⟨1, .num 30, .PENDING, .DEPOSIT, some "ref1"⟩).result
      = .error (wrapError (duplicateError "ref1"))) := by
  refine ⟨?_, ?_, ?_, ?_, ?_⟩ <;> decide

theorem checksPhase_negative (db : Db) (data : TxData) (w : Wallet) (b a : Int)
    (hw : findWallet db data.walletId = some w)
    (hdup : (refTruthy data.referenceId && dupExists db data.referenceId data.type) = false)
    (hb : w.balance = JsNum.num b)
    (ha : data.amount = JsNum.num a)
    (hneg : a < 0) :
    checksPhase db data = .error invalidAmountError := by
  simp only [checksPhase, hw]
  rw [if_neg (by simp [hdup]), hb, ha]
  simp only [parseFloat]
  rw [if_pos hneg]

theorem checksPhase_error (db : Db) (data : TxData) (e : ErrorType)
    (h : checksPhase db data = .error e) :
    e = notFoundError ∨ (∃ r, e = duplicateError r) ∨ e = invalidDataError ∨
    (e = invalidAmountError ∧ ∃ a, data.amount = JsNum.num a ∧ a < 0) := by
  unfold checksPhase at h
  split at h
  · exact Or.inl (by simpa using h.symm)
  next w hw =>
    split at h
    · exact Or.inr (Or.inl ⟨(data.referenceId).getD "", by simpa using h.symm⟩)
    next hdup =>
      split at h
      next balance amount hb ha =>
        split at h
        next hneg =>
          refine Or.inr (Or.inr (Or.inr ⟨by simpa using h.symm, amount, ?_, hneg⟩))
          exact parseFloat_eq_some _ _ ha
        · exact absurd h (by simp)
      next => exact Or.inr (Or.inr (Or.inl (by simpa using h.symm)))

/-- C7 (amended): the `InvalidAmountError` check fires exactly for
negative parsed amounts — but only after the earlier guards: a call
whose wallet exists, whose duplicate pre-check passes and whose numbers
parse fails with `InvalidAmountError` whenever its amount is negative,
mutating nothing and performing no unit-of-work action; conversely,
every `InvalidAmountError` outcome of any call comes from a negative
amount (a non-negative amount is never rejected with it).  A call with
a negative amount can still fail with an earlier guard's error instead
(see the counterexample). -/
theorem claim_C7_invalid_amount :
    (∀ (db : Db) (cu : Bool) (data : TxData) (w : Wallet) (b a : Int),
       findWallet db data.walletId = some w →
       (refTruthy data.referenceId && dupExists db data.referenceId data.type) = false →
       w.balance = JsNum.num b →
       data.amount = JsNum.num a →
       a < 0 →
       createTransactionRepo db cu data
         = ⟨.error invalidAmountError, db, []⟩) ∧
    (∀ (db : Db) (cu : Bool) (data : TxData) (e : ErrorType),
       (createTransactionRepo db cu data).result = .error e →
       e.name = "InvalidAmountError" →
       ∃ a, data.amount = JsNum.num a ∧ a < 0) := by
  constructor
  · intro db cu data w b a hw hdup hb ha hneg
    have hchecks : checksPhase db data = .error invalidAmountError :=
      checksPhase_negative db data w b a hw hdup hb ha hneg
    have hwrap : wrapError invalidAmountError = invalidAmountError :=
      wrapError_eq_self invalidAmountError (by decide) (by decide)
    simp [createTransactionRepo, hchecks, hwrap]
  · intro db cu data e he hname
    rcases createTransactionRepo_spec db cu data with
      ⟨e0, hchecks, hout⟩ | ⟨b, a, e0, hchecks, happly, hout⟩ |
      ⟨b, a, nb, hchecks, happly, hout⟩
    · rw [hout] at he
      obtain rfl : e = wrapError e0 := by simpa using he.symm
      rcases checksPhase_error db data e0 hchecks with
        rfl | ⟨r, rfl⟩ | rfl | ⟨rfl, a, ha, hneg⟩
      · exact absurd hname (by simp [wrapError, notFoundError])
      · exact absurd hname (by simp [wrapError, duplicateError])
      · exact absurd hname (by simp [wrapError, invalidDataError])
      · exact ⟨a, ha, hneg⟩
    · rw [hout] at he
      obtain rfl : e = wrapError e0 := by simpa using he.symm
      rcases applyType_error data.type b a e0 happly with
        ⟨_, _, rfl⟩ | ⟨_, rfl⟩
      · exact absurd hname (by simp [wrapError, insufficientFundsError])
      · exact absurd hname (by simp [wrapError, invalidTypeError])
    · rw [hout] at he
      exact absurd he (by simp)

/-- C7 witness: a negative deposit amount on an existing wallet fails
with `InvalidAmountError` and mutates nothing. -/
theorem claim_C7_invalid_amount_witness :
    createTransactionRepo ⟨[⟨1, .num 100⟩], [], 10, 5⟩ false
        ⟨1, .num (-5), .PENDING, .DEPOSIT, none⟩
      = ⟨.error invalidAmountError, ⟨[⟨1, .num 100⟩], [], 10, 5⟩, []⟩ :=
  claim_C7_invalid_amount.1 ⟨[⟨1, .num 100⟩], [], 10, 5⟩ false
    ⟨1, .num (-5), .PENDING, .DEPOSIT, none⟩ ⟨1, .num 100⟩ 100 (-5)
    (by decide) (by decide) rfl rfl (by decide)

/-- C7 counterexample: a call with a negative amount does NOT always
fail with `InvalidAmountError`: when the wallet does not exist the
earlier guard wins and the call fails with `NotFoundError` (the amount
check at line 59 runs after the wallet lookup at line 25). -/
theorem claim_C7_counterexample :
    (createTransactionRepo ⟨[], [], 0, 0⟩ false
        ⟨1, .num (-5), .PENDING, .DEPOSIT, none⟩).result
      = .error notFoundError ∧
    notFoundError.name = "NotFoundError" := by
  constructor
  · decide
  · decide

/-- C8 (amended): the catch-all at lines 124-130 never swallows an
error — every error propagating out of `createTransactionRepo` has
passed through `wrapError` — and it preserves the original code always,
the original name and message whenever they are non-empty, and falls
back to `TransactionCreationError` / `Failed to create transaction`
only when the original name / message is empty (absent).  An unexpected
failure with a non-empty name is therefore re-raised under its ORIGINAL
name, not under `TransactionCreationError` (see the counterexample). -/
theorem claim_C8_error_wrapping :
    (∀ e : ErrorType,
       (wrapError e).code = e.code ∧
       (e.name ≠ "" → (wrapError e).name = e.name) ∧
       (e.name = "" → (wrapError e).name = "TransactionCreationError") ∧
       (e.message ≠ "" → (wrapError e).message = e.message) ∧
       (e.message = "" → (wrapError e).message = "Failed to create transaction")) ∧
    (∀ (db : Db) (cu : Bool) (data : TxData) (e : ErrorType),
       (createTransactionRepo db cu data).result = .error e →
       ∃ e0, e = wrapError e0) := by
  constructor
  · intro e
    refine ⟨rfl, ?_, ?_, ?_, ?_⟩ <;> intro h <;> simp [wrapError, h]
  · intro db cu data e he
    rcases createTransactionRepo_spec db cu data with
      ⟨e0, _, hout⟩ | ⟨b, a, e0, _, _, hout⟩ | ⟨b, a, nb, _, _, hout⟩
    · rw [hout] at he
      exact ⟨e0, by simpa using he.symm⟩
    · rw [hout] at he
      exact ⟨e0, by simpa using he.symm⟩
    · rw [hout] at he
      exact absurd he (by simp)

/-- C8 witness: a lower-layer failure with a non-empty name keeps its
name and code through the wrapper, and a concrete failing call's error
is indeed a wrapped error. -/
theorem claim_C8_error_wrapping_witness :
    (wrapError ⟨"SequelizeConnectionError", "getaddrinfo ENOTFOUND",
        some "ECONNREFUSED"⟩).name = "SequelizeConnectionError" ∧
    (wrapError ⟨"SequelizeConnectionError", "getaddrinfo ENOTFOUND",
        some "ECONNREFUSED"⟩).code = some "ECONNREFUSED" ∧
    ∃ e0, notFoundError = wrapError e0 :=
  ⟨(claim_C8_error_wrapping.1 ⟨"SequelizeConnectionError",
      "getaddrinfo ENOTFOUND", some "ECONNREFUSED"⟩).2.1 (by decide),
   (claim_C8_error_wrapping.1 ⟨"SequelizeConnectionError",
      "getaddrinfo ENOTFOUND", some "ECONNREFUSED"⟩).1,
   claim_C8_error_wrapping.2 ⟨[], [], 0, 0⟩ false
     ⟨1, .num 5, .PENDING, .DEPOSIT, none⟩ notFoundError (by decide)⟩

/-- C8 counterexample: an unexpected failure whose name is non-empty
(e.g. a storage-layer `SequelizeConnectionError`, not one of the six
enumerated kinds) is re-raised under its original name — the claim's
"re-raised as a typed error of kind TransactionCreationError" is false
for it. -/
theorem claim_C8_counterexample :
    (wrapError ⟨"SequelizeConnectionError", "getaddrinfo ENOTFOUND",
        some "ECONNREFUSED"⟩).name = "SequelizeConnectionError" ∧
    ¬ (wrapError ⟨"SequelizeConnectionError", "getaddrinfo ENOTFOUND",
        some "ECONNREFUSED"⟩).name = "TransactionCreationError" ∧
    ¬ "SequelizeConnectionError" ∈ (["NotFoundError",
      "DuplicateTransactionError", "InvalidDataError", "InvalidAmountError",
      "InvalidTypeError", "InsufficientFundsError"] : List String) := by
  refine ⟨?_, ?_, ?_⟩
  · decide
  · decide
  · decide

theorem mem_insertDesc (r x : TransactionRow) (l : List TransactionRow) :
    x ∈ insertDesc r l ↔ x = r ∨ x ∈ l := by
  induction l with
  | nil => simp [insertDesc]
  | cons y ys ih =>
    unfold insertDesc
    by_cases h : r.createdAt ≤ y.createdAt
    · rw [if_pos h]
      simp only [List.mem_cons, ih]
      tauto
    · rw [if_neg h]
      simp only [List.mem_cons]

theorem mem_sortDesc (x : TransactionRow) (l : List TransactionRow) :
    x ∈ sortDesc l ↔ x ∈ l := by
  induction l with
  | nil => simp [sortDesc]
  | cons y ys ih =>
    simp only [sortDesc, mem_insertDesc, ih, List.mem_cons]

theorem pairwise_insertDesc (r : TransactionRow) (l : List TransactionRow)
    (h : l.Pairwise fun x y => y.createdAt ≤ x.createdAt) :
    (insertDesc r l).Pairwise fun x y => y.createdAt ≤ x.createdAt := by
  induction l with
  | nil => simp [insertDesc]
  | cons y ys ih =>
    rw [List.pairwise_cons] at h
    obtain ⟨hy, hys⟩ := h
    unfold insertDesc
    by_cases hle : r.createdAt ≤ y.createdAt
    · rw [if_pos hle]
      rw [List.pairwise_cons]
      refine ⟨?_, ih hys⟩
      intro z hz
      rcases (mem_insertDesc r z ys).mp hz with rfl | hzys
      · exact hle
      · exact hy z hzys
    · rw [if_neg hle]
      have hyr : y.createdAt ≤ r.createdAt :=
        Nat.le_of_lt (Nat.lt_of_not_le hle)
      rw [List.pairwise_cons]
      refine ⟨?_, List.pairwise_cons.mpr ⟨hy, hys⟩⟩
      intro z hz
      rcases List.mem_cons.mp hz with rfl | hzys
      · exact hyr
      · exact Nat.le_trans (hy z hzys) hyr

theorem pairwise_sortDesc (l : List TransactionRow) :
    (sortDesc l).Pairwise fun x y => y.createdAt ≤ x.createdAt := by
  induction l with
  | nil => simp [sortDesc]
  | cons y ys ih => exact pairwise_insertDesc y (sortDesc ys) ih

/-- C9: pagination correctness of `getListTransactionRepo`.  The
returned total is the size of the full filtered set and does not depend
on the pagination window; the `offset (page-1)*limit, limit` slice is
applied exactly when both `page` and `limit` are supplied and positive,
otherwise the full filtered set is returned; `page = 2, limit = 10`
yields items 11-20 of the filtered, ordered set; and the returned list
is always ordered by creation time descending. -/
theorem claim_C9_pagination :
    ∀ (db : Db) (f : ListFilters),
      (getListTransactionRepo db f).2
        = (db.transactions.filter (matchesWhere f)).length ∧
      (∀ p l : Option Nat,
         (getListTransactionRepo db
           ⟨f.walletId, f.status, f.type, f.start_date, f.end_date, p, l⟩).2
         = (getListTransactionRepo db f).2) ∧
      (∀ p l : Nat, f.page = some p → f.limit = some l → 0 < p → 0 < l →
         (getListTransactionRepo db f).1
           = ((sortDesc (db.transactions.filter (matchesWhere f))).drop
               ((p - 1) * l)).take l) ∧
      ((∀ p l : Nat, ¬(f.page = some p ∧ f.limit = some l ∧ 0 < p ∧ 0 < l)) →
         (getListTransactionRepo db f).1
           = sortDesc (db.transactions.filter (matchesWhere f))) ∧
      (f.page = some 2 → f.limit = some 10 →
         (getListTransactionRepo db f).1
           = ((sortDesc (db.transactions.filter (matchesWhere f))).drop 10).take 10) ∧
      (getListTransactionRepo db f).1.Pairwise
        (fun x y => y.createdAt ≤ x.createdAt) := by
  intro db f
  refine ⟨rfl, fun p l => rfl, ?_, ?_, ?_, ?_⟩
  · intro p l hp hl h0p h0l
    simp only [getListTransactionRepo, hp, hl]
    rw [if_pos ⟨h0p, h0l⟩]
  · intro hnone
    cases hp : f.page with
    | none => simp [getListTransactionRepo, hp]
    | some p =>
      cases hl : f.limit with
      | none => simp [getListTransactionRepo, hp, hl]
      | some l =>
        have : ¬(0 < p ∧ 0 < l) := by
          intro ⟨h0p, h0l⟩
          exact hnone p l ⟨hp, hl, h0p, h0l⟩
        simp only [getListTransactionRepo, hp, hl]
        rw [if_neg this]
  · intro hp hl
    simp only [getListTransactionRepo, hp, hl]
    rw [if_pos ⟨by decide, by decide⟩]
  · have hsorted := pairwise_sortDesc (db.transactions.filter (matchesWhere f))
    cases hp : f.page with
    | none => simpa [getListTransactionRepo, hp] using hsorted
    | some p =>
      cases hl : f.limit with
      | none => simpa [getListTransactionRepo, hp, hl] using hsorted
      | some l =>
        simp only [getListTransactionRepo, hp, hl]
        by_cases h0 : 0 < p ∧ 0 < l
        · rw [if_pos h0]
          refine List.Pairwise.sublist ?_ hsorted
          exact (List.take_sublist _ _).trans (List.drop_sublist _ _)
        · rw [if_neg h0]
          exact hsorted

/-- C9 witness: with three rows and `page = 2, limit = 1` the second
item of the descending order is returned, while total stays 3. -/
theorem claim_C9_pagination_witness :
    (getListTransactionRepo
        ⟨[], [⟨0, 1, .num 1, .PENDING, .DEPOSIT, none, false, 1⟩,
              ⟨1, 1, .num 2, .PENDING, .DEPOSIT, none, false, 2⟩,
              ⟨2, 1, .num 3, .PENDING, .DEPOSIT, none, false, 3⟩], 3, 4⟩
        ⟨none, none, none, none, none, some 2, some 1⟩).1
      = [⟨1, 1, .num 2, .PENDING, .DEPOSIT, none, false, 2⟩] ∧
    (getListTransactionRepo
        ⟨[], [⟨0, 1, .num 1, .PENDING, .DEPOSIT, none, false, 1⟩,
              ⟨1, 1, .num 2, .PENDING, .DEPOSIT, none, false, 2⟩,
              ⟨2, 1, .num 3, .PENDING, .DEPOSIT, none, false, 3⟩], 3, 4⟩
        ⟨none, none, none, none, none, some 2, some 1⟩).2 = 3 := by
  constructor
  · exact ((claim_C9_pagination
      ⟨[], [⟨0, 1, .num 1, .PENDING, .DEPOSIT, none, false, 1⟩,
            ⟨1, 1, .num 2, .PENDING, .DEPOSIT, none, false, 2⟩,
            ⟨2, 1, .num 3, .PENDING, .DEPOSIT, none, false, 3⟩], 3, 4⟩
      ⟨none, none, none, none, none, some 2, some 1⟩).2.2.1 2 1 rfl rfl
      (by decide) (by decide)).trans (by decide)
  · exact ((claim_C9_pagination
      ⟨[], [⟨0, 1, .num 1, .PENDING, .DEPOSIT, none, false, 1⟩,
            ⟨1, 1, .num 2, .PENDING, .DEPOSIT, none, false, 2⟩,
            ⟨2, 1, .num 3, .PENDING, .DEPOSIT, none, false, 3⟩], 3, 4⟩
      ⟨none, none, none, none, none, some 2, some 1⟩).1).trans (by decide)

/-- C10 (amended): every transaction returned by
`getListTransactionRepo` is non-deleted; when a NONZERO `walletId`
filter is supplied every returned row carries it (a supplied `walletId`
of 0 is falsy at line 145 and filters nothing — see the counterexample);
and a supplied `start_date` / `end_date` bounds every returned row's
creation time inclusively from below / above. -/
theorem claim_C10_filtering :
    ∀ (db : Db) (f : ListFilters) (t : TransactionRow),
      t ∈ (getListTransactionRepo db f).1 →
      t.isDeleted = false ∧
      (∀ w, f.walletId = some w → w ≠ 0 → t.walletId = w) ∧
      (∀ s, f.start_date = some s → s ≤ t.createdAt) ∧
      (∀ e2, f.end_date = some e2 → t.createdAt ≤ e2) := by
  intro db f t ht
  have hsorted : t ∈ sortDesc (db.transactions.filter (matchesWhere f)) := by
    revert ht
    cases hp : f.page with
    | none => simp only [getListTransactionRepo, hp]; exact id
    | some p =>
      cases hl : f.limit with
      | none => simp only [getListTransactionRepo, hp, hl]; exact id
      | some l =>
        simp only [getListTransactionRepo, hp, hl]
        by_cases h0 : 0 < p ∧ 0 < l
        · rw [if_pos h0]
          intro ht
          exact List.mem_of_mem_drop (List.mem_of_mem_take ht)
        · rw [if_neg h0]; exact id
  have hmem : t ∈ db.transactions.filter (matchesWhere f) :=
    (mem_sortDesc t _).mp hsorted
  have hmw : matchesWhere f t = true := (List.mem_filter.mp hmem).2
  unfold matchesWhere at hmw
  simp only [Bool.and_eq_true] at hmw
  obtain ⟨⟨⟨⟨⟨hdel, hwid⟩, _⟩, _⟩, hstart⟩, hend⟩ := hmw
  refine ⟨by simpa using hdel, ?_, ?_, ?_⟩
  · intro w hw hw0
    rw [hw] at hwid
    have hne : (w == 0) = false := by simpa using hw0
    simp only [hne, Bool.false_eq_true, if_false, beq_iff_eq] at hwid
    exact hwid
  · intro s hs
    rw [hs] at hstart
    simpa using hstart
  · intro e2 he2
    rw [he2] at hend
    simpa using hend

/-- C10 witness: a concrete filtered call returns only non-deleted rows
of the requested nonzero wallet inside the inclusive window. -/
theorem claim_C10_filtering_witness :
    (⟨0, 7, .num 1, .PENDING, .DEPOSIT, none, false, 2⟩ : TransactionRow)
      ∈ (getListTransactionRepo
        ⟨[], [⟨0, 7, .num 1, .PENDING, .DEPOSIT, none, false, 2⟩], 1, 3⟩
        ⟨some 7, none, none, some 1, some 3, none, none⟩).1 ∧
    (⟨0, 7, .num 1, .PENDING, .DEPOSIT, none, false, 2⟩ : TransactionRow).walletId = 7 ∧
    (1 : Nat) ≤ 2 ∧ (2 : Nat) ≤ 3 :=
  ⟨by decide,
   (claim_C10_filtering
      ⟨[], [⟨0, 7, .num 1, .PENDING, .DEPOSIT, none, false, 2⟩], 1, 3⟩
      ⟨some 7, none, none, some 1, some 3, none, none⟩
      ⟨0, 7, .num 1, .PENDING, .DEPOSIT, none, false, 2⟩ (by decide)).2.1
      7 rfl (by decide),
   (claim_C10_filtering
      ⟨[], [⟨0, 7, .num 1, .PENDING, .DEPOSIT, none, false, 2⟩], 1, 3⟩
      ⟨some 7, none, none, some 1, some 3, none, none⟩
      ⟨0, 7, .num 1, .PENDING, .DEPOSIT, none, false, 2⟩ (by decide)).2.2.1
      1 rfl,
   (claim_C10_filtering
      ⟨[], [⟨0, 7, .num 1, .PENDING, .DEPOSIT, none, false, 2⟩], 1, 3⟩
      ⟨some 7, none, none, some 1, some 3, none, none⟩
      ⟨0, 7, .num 1, .PENDING, .DEPOSIT, none, false, 2⟩ (by decide)).2.2.2
      3 rfl⟩

/-- C10 counterexample: a supplied `walletId` of 0 is JavaScript-falsy
at line 145, so the filter is silently dropped: the result contains a
row whose walletId is 1, not the requested 0. -/
theorem claim_C10_counterexample :
    (getListTransactionRepo
        ⟨[], [⟨0, 1, .num 1, .PENDING, .DEPOSIT, none, false, 1⟩], 1, 2⟩
        ⟨some 0, none, none, none, none, none, none⟩).1
      = [⟨0, 1, .num 1, .PENDING, .DEPOSIT, none, false, 1⟩] ∧
    (⟨0, 1, .num 1, .PENDING, .DEPOSIT, none, false, 1⟩ : TransactionRow).walletId
      ≠ 0 := by
  constructor
  · decide
  · decide
